import Mathlib

/-!
Shallow embedding of the affordance-resolution and DOM-action-execution
pipeline of the browser-resident chat-assistant repository: the selector
matcher (`src/app/api/chat/selector-tool.ts`), the structured intent matcher
and intent tool (`src/lib/intent-config.ts`, `src/app/api/chat/intent-tool.ts`),
the affordance collector (`src/components/agent/find-affordances.ts`), the
DOM action executor `Actor` (`director/actor.ts`) and the action dispatch
guard embedded in `src/components/agent/widget.tsx`.

JavaScript strings are modelled by Lean `String` on the ASCII fragment
(UTF-16 code-unit subtleties do not arise for the inputs considered here).
All definitions are executable and kernel-reducible, so concrete runs are
settled by `decide` or `rfl`.
-/

namespace Umbrella

/-- Models JavaScript `String.prototype.toLowerCase` (ASCII fragment):
lowercases every character. -/
def jsToLower (s : String) : String := String.mk (s.data.map Char.toLower)

/-- Models JavaScript `hay.includes(needle)`: `needle` occurs in `hay` as a
contiguous substring. -/
def strIncludes (hay needle : String) : Bool := decide (needle.data <:+: hay.data)

/-- Worker for `jsSplitWS`.  `cur` is the current token accumulated in reverse;
`skipping` is true while we are inside a whitespace run whose token boundary
has already been emitted (this mirrors splitting on the regex `\s+`, which
treats a maximal whitespace run as a single separator). -/
def splitWSGo : List Char → List Char → Bool → List (List Char)
  | [], cur, _ => [cur.reverse]
  | c :: cs, cur, skipping =>
    if c.isWhitespace then
      if skipping then splitWSGo cs [] true
      else cur.reverse :: splitWSGo cs [] true
    else splitWSGo cs (c :: cur) false

/-- Models JavaScript `s.split(/\s+/)`: pieces of `s` between maximal
whitespace runs, keeping the empty leading/trailing pieces exactly as the
JavaScript engine does (`" a".split(/\s+/)` is `["", "a"]`). -/
def jsSplitWS (s : String) : List String := (splitWSGo s.data [] false).map String.mk

/-- Worker for `jsSplitOnChar`: split on every occurrence of one separator
character (JavaScript `s.split("-")`). -/
def splitCharGo (sep : Char) : List Char → List Char → List (List Char)
  | [], cur => [cur.reverse]
  | c :: cs, cur =>
    if c == sep then cur.reverse :: splitCharGo sep cs []
    else splitCharGo sep cs (c :: cur)

/-- Models JavaScript `s.split(sep)` for a one-character separator. -/
def jsSplitOnChar (sep : Char) (s : String) : List String :=
  (splitCharGo sep s.data []).map String.mk

/-! ## Selector Matcher (`selector-tool.ts`, `selectorTool.execute`)

The tool parses the affordances context into records `{name, tag, selector}`
and then scores each one; the embedding starts from the parsed list, which is
what both claims quantify over. -/

/-- One parsed affordance line, format `- Name (tag) - selector`. -/
structure SelAffordance where
  name : String
  tag : String
  selector : String
deriving DecidableEq

/-- The action-type compatibility bonus of `selectorTool.execute`
(`score += 10` when the action is `click` on a button/anchor/input tag or
`type` on an input/textarea tag). -/
def actionBonus (action : String) (a : SelAffordance) : Nat :=
  let tagLower := jsToLower a.tag
  if (action == "click" && (tagLower == "button" || tagLower == "a" || tagLower == "input"))
      || (action == "type" && (tagLower == "input" || tagLower == "textarea")) then 10
  else 0

/-- Per-affordance score of `selectorTool.execute` (lines 61-108 of
`selector-tool.ts`): exact lowercased name match 100, else substring match in
either direction 80, else tag substring match in either direction 60, else
20 per whitespace-split keyword of the intent occurring in the name or the
tag; the action-type bonus is then added on top of whichever branch fired. -/
def scoreAffordance (intent action : String) (a : SelAffordance) : Nat :=
  let intentLower := jsToLower intent
  let nameLower := jsToLower a.name
  let tagLower := jsToLower a.tag
  let base :=
    if nameLower == intentLower then 100
    else if strIncludes nameLower intentLower || strIncludes intentLower nameLower then 80
    else if strIncludes intentLower tagLower || strIncludes tagLower intentLower then 60
    else 20 * List.countP (fun kw => strIncludes nameLower kw || strIncludes tagLower kw)
        (jsSplitWS intentLower)
  base + actionBonus action a

/-- One iteration of the best-match loop: `if (score > bestScore) { bestScore
= score; bestMatch = affordance; }` — strict comparison, so the first
affordance in encounter order wins ties. -/
def bestStep (intent action : String) (acc : Option SelAffordance × Nat)
    (a : SelAffordance) : Option SelAffordance × Nat :=
  let score := scoreAffordance intent action a
  if acc.2 < score then (some a, score) else acc

/-- The best-match loop of `selectorTool.execute`, starting from
`bestMatch = null`, `bestScore = 0`. -/
def bestAffordance (intent action : String) (affs : List SelAffordance) :
    Option SelAffordance × Nat :=
  affs.foldl (bestStep intent action) (none, 0)

/-- Result payload of the selector tool: a match carrying the selected
element, the confidence tier and the match score, or the no-match payload
carrying the suggestion string. -/
inductive SelectorResult where
  | matched (selected : SelAffordance) (confidence : String) (matchScore : Nat)
  | noMatch (suggestion : String)
deriving DecidableEq

/-- The suggestion string of the no-match payload. -/
def suggestionMsg : String :=
  "Try being more specific about the element you want to interact with, or check if the element exists on the page"

/-- Confidence tier of the selector tool: `bestScore >= 80 ? "high" :
bestScore >= 40 ? "medium" : "low"`. -/
def confidenceOfScore (s : Nat) : String :=
  if 80 ≤ s then "high" else if 40 ≤ s then "medium" else "low"

/-- `selectorTool.execute` after parsing: run the scoring loop, then return
the matched payload when `bestMatch && bestScore > 0`, else the no-match
payload. -/
def selectorToolExecute (intent action : String) (affs : List SelAffordance) :
    SelectorResult :=
  let best := bestAffordance intent action affs
  match best.1 with
  | some a =>
    if 0 < best.2 then SelectorResult.matched a (confidenceOfScore best.2) best.2
    else SelectorResult.noMatch suggestionMsg
  | none => SelectorResult.noMatch suggestionMsg

/-! ## Structured intent matcher (`intent-config.ts`) and intent tool
(`intent-tool.ts`)

The static `umbrellamode.json` configuration is passed as an explicit
argument: an association list of categories, each an association list of
intent names to definitions (JavaScript object iteration order is the
insertion order that the list order models). -/

/-- One field declaration of a configured intent (`{ type, required }`;
`type` is a Lean keyword, hence `fieldType`). -/
structure IntentFieldSchema where
  fieldType : String
  required : Bool
deriving DecidableEq

/-- One action declaration of a configured intent. -/
structure IntentActionSchema where
  description : String
  parameters : List (String × String)
deriving DecidableEq

/-- A configured intent: declared fields and named actions. -/
structure IntentDefinition where
  fields : List (String × IntentFieldSchema)
  actions : List (String × IntentActionSchema)
deriving DecidableEq

/-- The whole configuration: categories to intents. -/
abbrev IntentConfig := List (String × List (String × IntentDefinition))

/-- The score loop body of `matchIntentFromUserRequest` for one intent:
+30 per `intentName.split("-")` word found in the lowercased request, +20 per
declared field name (lowercased) found in the request, +10 per
action-description word longer than 3 characters found in the request.
Translated fold-for-fold from the three `for` loops. -/
def intentScore (requestLower : String) (intentName : String) (d : IntentDefinition) : Nat :=
  let s1 := (jsSplitOnChar '-' intentName).foldl
    (fun s w => if strIncludes requestLower w then s + 30 else s) 0
  let s2 := d.fields.foldl
    (fun s f => if strIncludes requestLower (jsToLower f.1) then s + 20 else s) s1
  d.actions.foldl
    (fun s a =>
      (jsSplitWS (jsToLower a.2.description)).foldl
        (fun sw w => if 3 < w.length && strIncludes requestLower w then sw + 10 else sw) s)
    s2

/-- The running best match of `matchIntentFromUserRequest`. -/
structure BestIntent where
  category : String
  intentName : String
  score : Nat
  config : IntentDefinition
deriving DecidableEq

/-- One iteration of the inner intent loop: `if (score > 0 && (!bestMatch ||
score > bestMatch.score))` — the first intent in encounter order wins ties. -/
def intentStep (requestLower cat : String) (b : Option BestIntent)
    (p : String × IntentDefinition) : Option BestIntent :=
  let score := intentScore requestLower p.1 p.2
  if decide (0 < score) &&
      (match b with
       | none => true
       | some bm => decide (bm.score < score)) then
    some ⟨cat, p.1, score, p.2⟩
  else b

/-- `categoriesToSearch`: the hint alone when given, else every configured
category in order. -/
def categoriesToSearch (config : IntentConfig) (category : Option String) : List String :=
  match category with
  | some c => [c]
  | none => config.map Prod.fst

/-- Models `config.intents?.[cat]`: association-list lookup. -/
def lookupCategory (config : IntentConfig) (cat : String) :
    Option (List (String × IntentDefinition)) :=
  (config.find? (fun p => p.1 == cat)).map Prod.snd

/-- The intents actually scanned for a category (`continue` on a missing
category means the empty list). -/
def intentsOf (config : IntentConfig) (cat : String) : List (String × IntentDefinition) :=
  (lookupCategory config cat).getD []

/-- The double loop of `matchIntentFromUserRequest` producing the best match
(with its score, before confidence classification). -/
def bestIntent (config : IntentConfig) (userRequest : String)
    (category : Option String) : Option BestIntent :=
  let requestLower := jsToLower userRequest
  (categoriesToSearch config category).foldl
    (fun b cat => (intentsOf config cat).foldl (intentStep requestLower cat) b)
    none

/-- Confidence classification of `matchIntentFromUserRequest`: high when the
score is at least 50, medium when at least 30, else low. -/
def confidenceOfIntentScore (s : Nat) : String :=
  if 50 ≤ s then "high" else if 30 ≤ s then "medium" else "low"

/-- The value `matchIntentFromUserRequest` returns (the score is dropped;
only the confidence tier survives). -/
structure IntentMatch where
  category : String
  intentName : String
  confidence : String
  config : IntentDefinition
deriving DecidableEq

/-- `matchIntentFromUserRequest`: `null` when no intent scored above zero,
else the best match with its classified confidence. -/
def matchIntentFromUserRequest (config : IntentConfig) (userRequest : String)
    (category : Option String) : Option IntentMatch :=
  match bestIntent config userRequest category with
  | none => none
  | some bm => some ⟨bm.category, bm.intentName, confidenceOfIntentScore bm.score, bm.config⟩

/-- Which branch `intentTool.execute` takes: the structured-intent branch
(field extraction, validation, formatting — not needed by the claims) or the
natural-language fallback parser applied to the original request. -/
inductive IntentToolOutcome where
  | structured (m : IntentMatch)
  | naturalLanguage (request : String)
deriving DecidableEq

/-- The branch decision of `intentTool.execute`: `if (intentMatch &&
intentMatch.confidence !== "low")` take the structured branch, else fall
through to the natural-language parser. -/
def intentToolExecute (config : IntentConfig) (userRequest : String)
    (category : Option String) : IntentToolOutcome :=
  match matchIntentFromUserRequest config userRequest category with
  | some m =>
    if m.confidence ≠ "low" then IntentToolOutcome.structured m
    else IntentToolOutcome.naturalLanguage userRequest
  | none => IntentToolOutcome.naturalLanguage userRequest

/-- The score carried by a running best match (`0` when there is none yet);
used to state the loop invariants of `matchIntentFromUserRequest`. -/
def optScore : Option BestIntent → Nat
  | none => 0
  | some bm => bm.score

/-! ## Affordance Collector (`find-affordances.ts`)

A DOM element is modelled with exactly the attributes `collectAffordances`
reads to compute the identity: tag name, `id`, `name`, `aria-label`, text
content and class list (`getAttribute(..) || ""` is modelled by plain
strings, `""` meaning absent), plus the persisted `data-umbrellamode-id`
attribute.  `throwMsg` models the browser environment: `some m` means that
attribute extraction on this element (for example `getComputedStyle` inside
`isVisible`, the first per-element call of the loop body) throws an
exception with message `m`; `none` means the element is well behaved.  The
snapshot-only fields (`bbox`, `visible`, `enabled`, `cssPath`, `role`,
`href`, `attrs`) are pure reads that do not feed the identity and are not
needed by the claims, so the items produced are the `(id, selector)` pairs. -/

/-- A candidate element as seen by `collectAffordances`. -/
structure DomEl where
  tagName : String
  idAttr : String
  nameAttr : String
  ariaLabel : String
  textContent : String
  className : String
  umbrellaId : Option String
  throwMsg : Option String
deriving DecidableEq

/-- JavaScript `|0` — wrap an integer to a signed 32-bit value. -/
def toInt32 (i : Int) : Int := (i + 2 ^ 31) % 2 ^ 32 - 2 ^ 31

/-- One iteration of `hashString`: `hash = (hash << 5) - hash +
input.charCodeAt(i); hash |= 0` (the shift itself wraps to 32 bits). -/
def jsHashStep (h : Int) (c : Nat) : Int := toInt32 (toInt32 (h * 32) - h + c)

/-- The 32-bit string hash loop of `hashString`. -/
def jsHash (s : String) : Int := s.data.foldl (fun h c => jsHashStep h c.toNat) 0

/-- Base-36 digit, `0-9a-z`, as produced by `Number.prototype.toString(36)`. -/
def digitChar36 (n : Nat) : Char := if n < 10 then Char.ofNat (48 + n) else Char.ofNat (87 + n)

/-- Fuel-driven base-36 digit accumulation (`fuel` bounds the number of
digits; any fuel of at least `n + 1` is exact). -/
def toBase36Go : Nat → Nat → List Char → List Char
  | 0, _, acc => acc
  | fuel + 1, n, acc =>
    if n = 0 then acc else toBase36Go fuel (n / 36) (digitChar36 (n % 36) :: acc)

/-- `Number.prototype.toString(36)` for a natural number. -/
def toBase36 (n : Nat) : String :=
  if n = 0 then "0" else String.mk (toBase36Go (n + 1) n [])

/-- `hashString` of `find-affordances.ts`: the 32-bit rolling hash,
`Math.abs`, then base-36 rendering.  Its result is never the empty string
(`toBase36` always yields at least one digit), so the `|| crypto.randomUUID
...` fallback in the source is unreachable and is not modelled. -/
def hashString (input : String) : String := toBase36 (jsHash input).natAbs

/-- The persisted identity attribute name. -/
def dataAttr : String := "data-umbrellamode-id"

/-- The authoritative selector: `[data-umbrellamode-id="<id>"]`. -/
def mkSelector (id : String) : String := "[" ++ dataAttr ++ "=\"" ++ id ++ "\"]"

/-- The hash base of `ensureAffordanceId`: the six identity sources joined
with `|` (text content truncated to 64 characters). -/
def idBase (el : DomEl) : String :=
  hashString (el.tagName ++ "|" ++ el.idAttr ++ "|" ++ el.nameAttr ++ "|"
    ++ el.ariaLabel ++ "|" ++ String.mk (el.textContent.data.take 64) ++ "|" ++ el.className)

/-- `Set.prototype.add` on a set modelled as a duplicate-free list. -/
def jsSetAdd (l : List String) (x : String) : List String :=
  if l.contains x then l else l ++ [x]

/-- The collision-disambiguation `while` loop of `ensureAffordanceId`: try
`base`, then `base-1`, `base-2`, … until the candidate is not in `seenIds`.
The fuel `seen.length + 1` is exact: the candidates are pairwise distinct, so
by pigeonhole one of the first `seen.length + 1` is fresh. -/
def freshIdGo (base : String) (seen : List String) : String → Nat → Nat → String
  | cand, _, 0 => cand
  | cand, counter, fuel + 1 =>
    if seen.contains cand then
      freshIdGo base seen (base ++ "-" ++ Nat.repr counter) (counter + 1) fuel
    else cand

/-- `ensureAffordanceId`: return the existing persisted identity unchanged
(only recording it in `seenIds`), or derive, disambiguate and persist a new
one.  Returns the id, the (possibly updated) element, and the updated
`seenIds`. -/
def ensureAffordanceId (seen : List String) (el : DomEl) :
    String × DomEl × List String :=
  match el.umbrellaId with
  | some existing => (existing, el, jsSetAdd seen existing)
  | none =>
    let cand := freshIdGo (idBase el) seen (idBase el) 1 (seen.length + 1)
    (cand, { el with umbrellaId := some cand }, jsSetAdd seen cand)

/-- The element loop of `collectAffordances`: process elements in document
order; an element whose extraction throws aborts the whole call (the loop
body has no try/catch); after pushing an item the loop breaks once
`items.length >= max`.  Returns the items and the post-scan document. -/
def collectGo : List DomEl → List String → Nat → Nat →
    Except String (List (String × String) × List DomEl)
  | [], _, _, _ => Except.ok ([], [])
  | el :: rest, seen, count, maxCount =>
    match el.throwMsg with
    | some m => Except.error m
    | none =>
      let r := ensureAffordanceId seen el
      if maxCount ≤ count + 1 then Except.ok ([(r.1, mkSelector r.1)], r.2.1 :: rest)
      else
        match collectGo rest r.2.2 (count + 1) maxCount with
        | Except.error m => Except.error m
        | Except.ok (items, rest2) =>
          Except.ok ((r.1, mkSelector r.1) :: items, r.2.1 :: rest2)

/-- `collectAffordances(max)`: scan the document (the default `max` is 400 at
the call sites). -/
def collectAffordances (dom : List DomEl) (maxCount : Nat) :
    Except String (List (String × String) × List DomEl) :=
  collectGo dom [] 0 maxCount

/-! ## Action Executor (`director/actor.ts`, class `Actor`)

The live document is an association list from selector strings to elements;
selector keys are unique in the document, so replace-by-key models
`document.querySelector` plus in-place mutation.  An element carries the
capability the executor dispatches on (`instanceof HTMLInputElement`,
`instanceof HTMLTextAreaElement`, `contentEditable === "true"`, or neither)
and its two value stores.  The native property setters that the source looks
up to bypass React wrappers exist on every browser, so writing through them
is modelled as plain field assignment.  Side effects visible to the page are
recorded in an event trace: `focusCall` for `element.focus()`, and the
synthetic `input` / `change` / `click` events dispatched by the executor.
The fixed 50 ms inter-character delay of simulated typing is real time and
is not part of the trace. -/

/-- What kind of DOM node the selector resolved to. -/
inductive ElemKind where
  | inputEl
  | textareaEl
  | contentEditableEl
  | otherEl
deriving DecidableEq

/-- A page element as the `Actor` sees it. -/
structure AElem where
  kind : ElemKind
  value : String
  textContent : String
deriving DecidableEq

/-- The live document: selector keys to elements, keys unique. -/
abbrev Page := List (String × AElem)

/-- `document.querySelector`: the element at the selector, if any. -/
def querySelector (page : Page) (sel : String) : Option AElem :=
  (page.find? (fun p => p.1 == sel)).map Prod.snd

/-- Replace the element stored at a selector (in-place DOM mutation). -/
def setElem (page : Page) (sel : String) (e : AElem) : Page :=
  page.map (fun p => if p.1 == sel then (p.1, e) else p)

/-- A page-visible side effect of the executor. -/
inductive Ev where
  | focusCall
  | inputEv (data : Option Char)
  | changeEv
  | clickEv
deriving DecidableEq

/-- Error message thrown by `click`, `type`, `clear`, `scrollToElement`,
`focus` and `blur` when the selector resolves to no element. -/
def elementNotFoundMsg (selector : String) : String :=
  "Element not found with selector: " ++ selector

/-- Error message thrown by `type` and `clear` on an unsupported element. -/
def unsupportedElementMsg (selector : String) : String :=
  "Element with selector \"" ++ selector
    ++ "\" is not a supported input element (input, textarea, or contenteditable)"

/-- The rejection message of `waitForElement` on timeout. -/
def timeoutMsg (selector : String) (timeout : Nat) : String :=
  "Element with selector \"" ++ selector ++ "\" not found within "
    ++ Nat.repr timeout ++ "ms"

/-- `Actor.click`: locate, focus, dispatch one synthetic bubbling click. -/
def click (page : Page) (selector : String) : Except String (Page × List Ev) :=
  match querySelector page selector with
  | none => Except.error (elementNotFoundMsg selector)
  | some _ => Except.ok (page, [Ev.focusCall, Ev.clickEv])

/-- The character loop of simulated typing on an input/textarea: per
character, append it to the value through the native setter and dispatch one
`input` event carrying the character (the `if (!char) continue` guard in the
source is vacuous — a JavaScript one-character string is never falsy — and
the 50 ms delay is outside the trace). -/
def typeSimLoopValue (el : AElem) (evs : List Ev) (chars : List Char) :
    AElem × List Ev :=
  chars.foldl
    (fun acc c => ({ acc.1 with value := acc.1.value.push c },
      acc.2 ++ [Ev.inputEv (some c)]))
    (el, evs)

/-- The character loop of simulated typing on a contenteditable element:
same shape, mutating `textContent`. -/
def typeSimLoopText (el : AElem) (evs : List Ev) (chars : List Char) :
    AElem × List Ev :=
  chars.foldl
    (fun acc c => ({ acc.1 with textContent := acc.1.textContent.push c },
      acc.2 ++ [Ev.inputEv (some c)]))
    (el, evs)

/-- `Actor.type(selector, text, simulateTyping)`: locate (throw when
absent), focus, then dispatch on the element kind.  Input/textarea: simulated
mode clears the value and types character by character with one `input` event
each; instant mode writes the whole string and dispatches one `input` event;
both finish with one `change` event.  Contenteditable: `textContent` is
cleared first in both modes, then the same two modes on `textContent`, with
no `change` event.  Anything else throws the unsupported-element error. -/
def type (page : Page) (selector text : String) (simulateTyping : Bool) :
    Except String (Page × List Ev) :=
  match querySelector page selector with
  | none => Except.error (elementNotFoundMsg selector)
  | some el =>
    let evs0 := [Ev.focusCall]
    match el.kind with
    | ElemKind.inputEl | ElemKind.textareaEl =>
      if simulateTyping then
        let r := typeSimLoopValue { el with value := "" } evs0 text.data
        Except.ok (setElem page selector r.1, r.2 ++ [Ev.changeEv])
      else
        Except.ok (setElem page selector { el with value := text },
          evs0 ++ [Ev.inputEv none, Ev.changeEv])
    | ElemKind.contentEditableEl =>
      let el0 := { el with textContent := "" }
      if simulateTyping then
        let r := typeSimLoopText el0 evs0 text.data
        Except.ok (setElem page selector r.1, r.2)
      else
        Except.ok (setElem page selector { el0 with textContent := text },
          evs0 ++ [Ev.inputEv none])
    | ElemKind.otherEl => Except.error (unsupportedElementMsg selector)

/-- `Actor.typeFast`: the convenience method, literally
`return this.type(selector, text, false)`. -/
def typeFast (page : Page) (selector text : String) :
    Except String (Page × List Ev) :=
  type page selector text false

/-- `Actor.focus`: locate the element and throw when absent; the body does
nothing else — no DOM mutation, no `element.focus()` call, no events. -/
def focus (page : Page) (selector : String) : Except String (Page × List Ev) :=
  match querySelector page selector with
  | none => Except.error (elementNotFoundMsg selector)
  | some _ => Except.ok (page, [])

/-- `Actor.blur`: identical shape to `focus` — locate, throw when absent,
otherwise do nothing. -/
def blur (page : Page) (selector : String) : Except String (Page × List Ev) :=
  match querySelector page selector with
  | none => Except.error (elementNotFoundMsg selector)
  | some _ => Except.ok (page, [])

/-- `Actor.waitForElement(selector, timeout)`: resolve immediately when the
selector already matches; otherwise a MutationObserver re-queries the
document at each subtree mutation, and a timer rejects with the timeout
message after `timeout` ms.  `mutations` is the sequence of document states
observed by the observer callback before the timer fires. -/
def waitForElement (page : Page) (mutations : List Page) (selector : String)
    (timeout : Nat) : Except String AElem :=
  match querySelector page selector with
  | some el => Except.ok el
  | none =>
    match mutations.findSome? (fun p => querySelector p selector) with
    | some el => Except.ok el
    | none => Except.error (timeoutMsg selector timeout)

/-- `Actor.waitForElement` with the caller omitting the timeout: the source
signature defaults it to 5000. -/
def waitForElementDefault (page : Page) (mutations : List Page)
    (selector : String) : Except String AElem :=
  waitForElement page mutations selector 5000

/-! ## Action Dispatch Guard (`widget.tsx`, `executeActorAction`)

The guard state is the pair of React state sets `executingActions` and
`completedActions`, modelled as duplicate-free lists of action ids.  One call
of `executeActorAction` is one state transition; `outcome` is whether the
awaited `Actor` method call returned or threw.  The returned boolean records
whether the executor was actually invoked. -/

/-- `Set.prototype.delete` on a set modelled as a duplicate-free list. -/
def jsSetDelete (l : List String) (x : String) : List String :=
  l.filter (fun y => y != x)

/-- The outcome of the awaited `Actor` method call. -/
inductive ExecOutcome where
  | success
  | failure
deriving DecidableEq

/-- The guard state: the two sets in the widget component. -/
structure GuardState where
  executing : List String
  completed : List String
deriving DecidableEq

/-- One run of `executeActorAction(actionData, actionId)`: bail out when the
payload is not executable; skip when the id is already executing or
completed; otherwise add the id to `executing`, run the actor call, on
success add the id to `completed` (the catch branch only logs), and in the
`finally` block remove the id from `executing`. -/
def executeActorAction (st : GuardState) (executable : Bool) (actionId : String)
    (outcome : ExecOutcome) : GuardState × Bool :=
  if executable = false then (st, false)
  else if st.executing.contains actionId || st.completed.contains actionId then
    (st, false)
  else
    let st1 : GuardState := { st with executing := jsSetAdd st.executing actionId }
    match outcome with
    | ExecOutcome.success =>
      let st2 : GuardState := { st1 with completed := jsSetAdd st1.completed actionId }
      ({ st2 with executing := jsSetDelete st2.executing actionId }, true)
    | ExecOutcome.failure =>
      ({ st1 with executing := jsSetDelete st1.executing actionId }, true)

/-! ## Theorems -/

/-- C9 (confirmed): `typeFast(selector, text)` is observationally equivalent
to `type(selector, text, false)` — the source body is literally
`return this.type(selector, text, false)`, so the two runs produce the same
DOM mutations, the same event trace and the same errors on every input. -/
theorem typeFast_refines_type (page : Page) (selector text : String) :
    typeFast page selector text = type page selector text false := rfl

/-- C10 (confirmed): on a selector that matches an element, `Actor.focus` and
`Actor.blur` return without error, leave the document unchanged, dispatch no
event and never call the native `element.focus()` / `element.blur()` (the
trace is empty — compare `click` and `type`, which record `Ev.focusCall`);
on a selector matching nothing both throw the element-not-found error naming
the selector. -/
theorem focus_blur_frame (page : Page) (selector : String) :
    ((querySelector page selector).isSome →
       focus page selector = Except.ok (page, []) ∧
       blur page selector = Except.ok (page, [])) ∧
    (querySelector page selector = none →
       focus page selector = Except.error (elementNotFoundMsg selector) ∧
       blur page selector = Except.error (elementNotFoundMsg selector)) := by
  constructor
  · intro h
    match hq : querySelector page selector with
    | some e => exact ⟨by simp [focus, hq], by simp [blur, hq]⟩
    | none => rw [hq] at h; simp at h
  · intro h
    exact ⟨by simp [focus, h], by simp [blur, h]⟩

/-- Witness for C10 at a concrete one-element page. -/
theorem focus_blur_frame_witness :
    focus [("#btn", ⟨ElemKind.otherEl, "", ""⟩)] "#btn"
      = Except.ok ([("#btn", ⟨ElemKind.otherEl, "", ""⟩)], []) ∧
    blur [("#btn", ⟨ElemKind.otherEl, "", ""⟩)] "#btn"
      = Except.ok ([("#btn", ⟨ElemKind.otherEl, "", ""⟩)], []) :=
  (focus_blur_frame [("#btn", ⟨ElemKind.otherEl, "", ""⟩)] "#btn").1 (by decide)

/-- C1 counterexample: running action id `m1-0` with a throwing executor from
the empty guard state leaves the completed set empty — the id is NOT moved to
completed as the claim states — and a later re-observation of the same id
executes again (the returned flag is true a second time) instead of being
skipped. -/
theorem guard_failure_not_completed_cex :
    (executeActorAction ⟨[], []⟩ true "m1-0" ExecOutcome.failure).1.completed = [] ∧
    "m1-0" ∉ (executeActorAction ⟨[], []⟩ true "m1-0" ExecOutcome.failure).1.completed ∧
    (executeActorAction
        (executeActorAction ⟨[], []⟩ true "m1-0" ExecOutcome.failure).1
        true "m1-0" ExecOutcome.failure).2 = true := by decide

/-- C1 (corrected): only a SUCCESSFUL execution moves an action identity to
the completed set.  After a successful run of a fresh identity the executor
was invoked, the identity is in completed and out of executing, and every
later observation of an identity already in completed is skipped with no
execution and no state change (so executing→completed happens at most once);
after a run whose executor call threw, the identity is in neither set, so a
later re-observation may execute it again. -/
theorem guard_success_terminal (st : GuardState) (actionId : String)
    (h1 : actionId ∉ st.executing) (h2 : actionId ∉ st.completed) :
    (executeActorAction st true actionId ExecOutcome.success).2 = true ∧
    actionId ∈ (executeActorAction st true actionId ExecOutcome.success).1.completed ∧
    actionId ∉ (executeActorAction st true actionId ExecOutcome.success).1.executing ∧
    (∀ (st2 : GuardState) (b : Bool) (o : ExecOutcome), actionId ∈ st2.completed →
       executeActorAction st2 b actionId o = (st2, false)) ∧
    actionId ∉ (executeActorAction st true actionId ExecOutcome.failure).1.completed ∧
    actionId ∉ (executeActorAction st true actionId ExecOutcome.failure).1.executing := by
  refine ⟨?_, ?_, ?_, ?_, ?_, ?_⟩
  · simp [executeActorAction, h1, h2]
  · simp [executeActorAction, jsSetAdd, jsSetDelete, h1, h2]
  · simp [executeActorAction, jsSetAdd, jsSetDelete, h1, h2, List.mem_filter]
  · intro st2 b o hmem
    cases b with
    | false => simp [executeActorAction]
    | true => simp [executeActorAction, hmem]
  · simp [executeActorAction, jsSetAdd, jsSetDelete, h1, h2]
  · simp [executeActorAction, jsSetAdd, jsSetDelete, h1, h2, List.mem_filter]

/-- Witness for C1 at the empty guard state and action id `a1`. -/
theorem guard_success_terminal_witness :
    (executeActorAction ⟨[], []⟩ true "a1" ExecOutcome.success).2 = true ∧
    "a1" ∈ (executeActorAction ⟨[], []⟩ true "a1" ExecOutcome.success).1.completed :=
  ⟨(guard_success_terminal ⟨[], []⟩ "a1" (by decide) (by decide)).1,
   (guard_success_terminal ⟨[], []⟩ "a1" (by decide) (by decide)).2.1⟩

/-- Helper for C8: the timeout rejection message differs from the immediate
element-not-found message for every selector and bound (they disagree at
character index 8 already). -/
theorem timeoutMsg_ne_elementNotFoundMsg (selector : String) (timeout : Nat) :
    timeoutMsg selector timeout ≠ elementNotFoundMsg selector := by
  intro h
  have hd : (timeoutMsg selector timeout).data = (elementNotFoundMsg selector).data :=
    congrArg String.data h
  simp only [timeoutMsg, elementNotFoundMsg, String.data_append, List.append_assoc] at hd
  have h9 := congrArg (List.take 9) hd
  rw [List.take_append_of_le_length (by decide),
    List.take_append_of_le_length (by decide)] at h9
  exact absurd h9 (by decide)

/-- C8 (confirmed): `waitForElement` resolves immediately with the element
when the selector already matches at call time; when the selector matches
neither at call time nor at any observed mutation it rejects with the
timeout error naming the selector and the bound; a caller omitting the
timeout gets the source default 5000 ms; and the timeout error is distinct
from the immediate element-not-found error. -/
theorem waitForElement_spec (page : Page) (mutations : List Page)
    (selector : String) (timeout : Nat) (el : AElem) :
    (querySelector page selector = some el →
       waitForElement page mutations selector timeout = Except.ok el) ∧
    (querySelector page selector = none →
       (∀ p ∈ mutations, querySelector p selector = none) →
       waitForElement page mutations selector timeout
         = Except.error (timeoutMsg selector timeout)) ∧
    waitForElementDefault page mutations selector
      = waitForElement page mutations selector 5000 ∧
    timeoutMsg selector timeout ≠ elementNotFoundMsg selector := by
  refine ⟨?_, ?_, rfl, timeoutMsg_ne_elementNotFoundMsg selector timeout⟩
  · intro h
    simp [waitForElement, h]
  · intro h hm
    have hnone : mutations.findSome? (fun p => querySelector p selector) = none :=
      List.findSome?_eq_none_iff.mpr hm
    simp [waitForElement, h, hnone]

/-- Witness for C8: on an empty page with no mutations, a 100 ms wait for
`#x` rejects with the timeout message. -/
theorem waitForElement_spec_witness :
    waitForElement [] [] "#x" 100 = Except.error (timeoutMsg "#x" 100) :=
  (waitForElement_spec [] [] "#x" 100 ⟨ElemKind.otherEl, "", ""⟩).2.1 rfl
    (by intro p hp; simp at hp)

/-- C4 counterexample: a document whose first matching element throws during
attribute extraction makes `collectAffordances` propagate the exception —
the call returns the error instead of the affordances of the remaining
elements, so the scan IS aborted part-way and the exception escapes. -/
theorem collect_throw_escapes_cex :
    collectAffordances
      [⟨"BUTTON", "", "", "", "Submit", "", none, some "boom"⟩,
       ⟨"A", "", "", "", "Link", "", none, none⟩] 400
      = Except.error "boom" := rfl

/-- Helper for C4: reaching a throwing element (all elements before it well
behaved and within the max budget) aborts the collection with its error. -/
theorem collectGo_throw (el : DomEl) (post : List DomEl) (m : String)
    (maxCount : Nat) (hel : el.throwMsg = some m) :
    ∀ (pre : List DomEl) (seen : List String) (count : Nat),
      (∀ e ∈ pre, e.throwMsg = none) → count + pre.length < maxCount →
      collectGo (pre ++ el :: post) seen count maxCount = Except.error m := by
  intro pre
  induction pre with
  | nil =>
    intro seen count _ _
    simp [collectGo, hel]
  | cons e pre ih =>
    intro seen count hall hlt
    have he : e.throwMsg = none := hall e (by simp)
    have hlt2 : count + 1 + pre.length < maxCount := by
      simp only [List.length_cons] at hlt
      omega
    have hnotmax : ¬ (maxCount ≤ count + 1) := by omega
    simp only [List.cons_append, collectGo, he, List.append_eq]
    rw [if_neg hnotmax, ih ((ensureAffordanceId seen e).2.2) (count + 1)
      (fun x hx => hall x (by simp [hx])) hlt2]

/-- C4 (corrected): `collectAffordances` has no per-element error handling —
the loop body contains no try/catch — so an element that throws during
attribute extraction aborts the whole scan and the exception escapes the
call; the affordances of the remaining elements are not returned. -/
theorem collect_throw_aborts (pre : List DomEl) (el : DomEl) (post : List DomEl)
    (m : String) (maxCount : Nat)
    (h1 : ∀ e ∈ pre, e.throwMsg = none)
    (h2 : el.throwMsg = some m)
    (h3 : pre.length < maxCount) :
    collectAffordances (pre ++ el :: post) maxCount = Except.error m :=
  collectGo_throw el post m maxCount h2 pre [] 0 h1 (by omega)

/-- Helper: rebuilding a string from its character list is the identity. -/
theorem stringMkData (s : String) : String.mk s.data = s := rfl

/-- Helper for C6: `ensureAffordanceId` never touches the throw behaviour of
an element (it only reads attributes and possibly writes the identity
attribute). -/
theorem ensure_throwMsg (seen : List String) (el : DomEl) :
    (ensureAffordanceId seen el).2.1.throwMsg = el.throwMsg := by
  unfold ensureAffordanceId
  cases hu : el.umbrellaId <;> simp [hu]

/-- Helper for C6: after `ensureAffordanceId`, the element carries exactly
the returned id in its identity attribute. -/
theorem ensure_id_set (seen : List String) (el : DomEl) :
    (ensureAffordanceId seen el).2.1.umbrellaId = some (ensureAffordanceId seen el).1 := by
  unfold ensureAffordanceId
  cases hu : el.umbrellaId <;> simp [hu]

/-- Helper for C6: on an element that already carries an identity attribute,
`ensureAffordanceId` returns that identity and leaves the element unchanged
(the existing attribute is never overwritten). -/
theorem ensure_existing (seen : List String) (el : DomEl) (id : String)
    (h : el.umbrellaId = some id) :
    ensureAffordanceId seen el = (id, el, jsSetAdd seen id) := by
  unfold ensureAffordanceId
  rw [h]

/-- Helper for C6: a successful collection pass is stable — running the loop
again on the post-scan document, from any `seenIds` set and the same
position, returns the identical items and leaves the document unchanged. -/
theorem collectGo_stable (maxCount : Nat) :
    ∀ (els : List DomEl) (seen : List String) (count : Nat)
      (items : List (String × String)) (els1 : List DomEl),
      collectGo els seen count maxCount = Except.ok (items, els1) →
      ∀ (seen2 : List String), collectGo els1 seen2 count maxCount = Except.ok (items, els1) := by
  intro els
  induction els with
  | nil =>
    intro seen count items els1 h seen2
    simp only [collectGo, Except.ok.injEq, Prod.mk.injEq] at h
    obtain ⟨h1, h2⟩ := h
    subst h1
    subst h2
    simp [collectGo]
  | cons el rest ih =>
    intro seen count items els1 h seen2
    cases hthrow : el.throwMsg with
    | some m => simp [collectGo, hthrow] at h
    | none =>
      simp only [collectGo, hthrow] at h
      have hthrow2 : (ensureAffordanceId seen el).2.1.throwMsg = none := by
        rw [ensure_throwMsg]
        exact hthrow
      have hensure2 : ensureAffordanceId seen2 (ensureAffordanceId seen el).2.1
          = ((ensureAffordanceId seen el).1, (ensureAffordanceId seen el).2.1,
             jsSetAdd seen2 (ensureAffordanceId seen el).1) :=
        ensure_existing seen2 _ _ (ensure_id_set seen el)
      by_cases hmax : maxCount ≤ count + 1
      · rw [if_pos hmax] at h
        simp only [Except.ok.injEq, Prod.mk.injEq] at h
        obtain ⟨h1, h2⟩ := h
        subst h1
        subst h2
        simp only [collectGo, hthrow2, hensure2]
        rw [if_pos hmax]
      · rw [if_neg hmax] at h
        cases hrec : collectGo rest (ensureAffordanceId seen el).2.2 (count + 1) maxCount with
        | error m => rw [hrec] at h; simp at h
        | ok p =>
          obtain ⟨items0, rest2⟩ := p
          rw [hrec] at h
          simp only [Except.ok.injEq, Prod.mk.injEq] at h
          obtain ⟨h1, h2⟩ := h
          subst h1
          subst h2
          have ih2 := ih (ensureAffordanceId seen el).2.2 (count + 1) items0 rest2 hrec
            (jsSetAdd seen2 (ensureAffordanceId seen el).1)
          simp only [collectGo, hthrow2, hensure2]
          rw [if_neg hmax, ih2]

/-- C6 (confirmed): re-collecting immediately after a successful collection,
with no DOM mutation in between, yields identical `(id, selector)` pairs for
every collected element and performs no identity-attribute write at all —
the post-scan document of the second pass is the post-scan document of the
first, so an existing identity attribute is never overwritten. -/
theorem collect_idempotent (dom : List DomEl) (maxCount : Nat)
    (items : List (String × String)) (dom1 : List DomEl)
    (h : collectAffordances dom maxCount = Except.ok (items, dom1)) :
    collectAffordances dom1 maxCount = Except.ok (items, dom1) :=
  collectGo_stable maxCount dom [] 0 items dom1 h []

set_option maxRecDepth 4000 in
/-- Witness for C6 on a one-button document: the second collection returns
the same id `gd71v2` and selector, leaving the document unchanged. -/
theorem collect_idempotent_witness :
    collectAffordances
      [⟨"BUTTON", "", "", "", "Submit", "", some "gd71v2", none⟩] 400
      = Except.ok ([("gd71v2", "[data-umbrellamode-id=\"gd71v2\"]")],
          [⟨"BUTTON", "", "", "", "Submit", "", some "gd71v2", none⟩]) :=
  collect_idempotent [⟨"BUTTON", "", "", "", "Submit", "", none, none⟩] 400
    [("gd71v2", "[data-umbrellamode-id=\"gd71v2\"]")]
    [⟨"BUTTON", "", "", "", "Submit", "", some "gd71v2", none⟩] (by rfl)

/-- Helper: querying a cons whose head key matches returns the head. -/
theorem querySelector_cons_hit (k : String) (v : AElem) (rest : Page) :
    querySelector ((k, v) :: rest) k = some v := by
  simp [querySelector, List.find?_cons]

/-- Helper: querying a cons whose head key differs skips the head. -/
theorem querySelector_cons_miss (k : String) (v : AElem) (rest : Page)
    (sel : String) (h : ¬ k = sel) :
    querySelector ((k, v) :: rest) sel = querySelector rest sel := by
  simp [querySelector, List.find?_cons, h]

/-- Helper: `setElem` on a cons, one step. -/
theorem setElem_cons (k : String) (v : AElem) (rest : Page) (sel : String)
    (e : AElem) :
    setElem ((k, v) :: rest) sel e
      = (if k == sel then (k, e) else (k, v)) :: setElem rest sel e := rfl

/-- Helper for C5: after replacing the element stored at a selector, querying
that selector returns the new element (the selector resolved before the
update, so the key is present). -/
theorem querySelector_setElem (page : Page) (sel : String) (e : AElem)
    (h : (querySelector page sel).isSome) :
    querySelector (setElem page sel e) sel = some e := by
  induction page with
  | nil => simp [querySelector] at h
  | cons p rest ih =>
    obtain ⟨k, v⟩ := p
    rw [setElem_cons]
    by_cases hk : k = sel
    · subst hk
      rw [if_pos (beq_self_eq_true k)]
      exact querySelector_cons_hit k e _
    · have hb : ¬ ((k == sel) = true) := by simp [hk]
      rw [if_neg hb, querySelector_cons_miss k v _ sel hk]
      rw [querySelector_cons_miss k v rest sel hk] at h
      exact ih h

/-- Helper for C5: the simulated-typing character loop appends exactly the
typed characters to the value and dispatches exactly one `input` event per
character, in order. -/
theorem typeSimLoopValue_spec (chars : List Char) : ∀ (el : AElem) (evs : List Ev),
    typeSimLoopValue el evs chars
      = ({ el with value := String.mk (el.value.data ++ chars) },
         evs ++ chars.map (fun c => Ev.inputEv (some c))) := by
  induction chars with
  | nil => intro el evs; simp [typeSimLoopValue]
  | cons c cs ih =>
    intro el evs
    show typeSimLoopValue { el with value := el.value.push c }
        (evs ++ [Ev.inputEv (some c)]) cs = _
    rw [ih]
    simp [String.push]

/-- C5 (confirmed): typing into an input/textarea element.  Instant mode
(`simulateTyping = false`) sets the element's value to exactly the text and
dispatches one `input` then one `change` event; simulated mode
(`simulateTyping = true`) also ends with the value exactly equal to the
text, dispatches exactly one `input` event per character of the text
(`text.length` in total), and both modes dispatch a `change` event at the
end. -/
theorem type_value_and_events (page : Page) (selector text : String) (el : AElem)
    (h1 : querySelector page selector = some el)
    (h2 : el.kind = ElemKind.inputEl ∨ el.kind = ElemKind.textareaEl)
    (h3 : text ≠ "") :
    type page selector text false
      = Except.ok (setElem page selector { el with value := text },
          [Ev.focusCall, Ev.inputEv none, Ev.changeEv]) ∧
    querySelector (setElem page selector { el with value := text }) selector
      = some { el with value := text } ∧
    type page selector text true
      = Except.ok (setElem page selector { el with value := text },
          [Ev.focusCall] ++ text.data.map (fun c => Ev.inputEv (some c)) ++ [Ev.changeEv]) ∧
    List.countP (fun e => match e with | Ev.inputEv _ => true | _ => false)
        ([Ev.focusCall] ++ text.data.map (fun c => Ev.inputEv (some c)) ++ [Ev.changeEv])
      = text.length ∧
    ([Ev.focusCall] ++ text.data.map (fun c => Ev.inputEv (some c)) ++ [Ev.changeEv]).getLast?
      = some Ev.changeEv ∧
    ([Ev.focusCall, Ev.inputEv none, Ev.changeEv] : List Ev).getLast? = some Ev.changeEv := by
  rcases el with ⟨kind, value, tc⟩
  rcases h2 with hk | hk <;> subst hk <;>
    refine ⟨by simp [type, h1],
      querySelector_setElem page selector _ (by simp [h1]), ?_,
      by rw [List.countP_append, List.countP_append, List.countP_map]
         show 0 + List.countP _ text.data + 0 = _
         rw [Nat.zero_add, Nat.add_zero]
         have hcomp : (fun e => match e with | Ev.inputEv _ => true | _ => false) ∘
             (fun c => Ev.inputEv (some c)) = fun _ => true := rfl
         rw [hcomp, List.countP_true]
         rfl,
      List.getLast?_concat _, by decide⟩ <;>
    · simp only [type, h1]
      rw [typeSimLoopValue_spec]
      simp [stringMkData]

/-- Witness for C5: typing `abc` into an input whose value was `old`. -/
theorem type_value_and_events_witness :
    type [("#e", ⟨ElemKind.inputEl, "old", ""⟩)] "#e" "abc" true
      = Except.ok ([("#e", ⟨ElemKind.inputEl, "abc", ""⟩)],
          [Ev.focusCall, Ev.inputEv (some 'a'), Ev.inputEv (some 'b'),
           Ev.inputEv (some 'c'), Ev.changeEv]) ∧
    type [("#e", ⟨ElemKind.inputEl, "old", ""⟩)] "#e" "abc" false
      = Except.ok ([("#e", ⟨ElemKind.inputEl, "abc", ""⟩)],
          [Ev.focusCall, Ev.inputEv none, Ev.changeEv]) :=
  ⟨(type_value_and_events [("#e", ⟨ElemKind.inputEl, "old", ""⟩)] "#e" "abc"
      ⟨ElemKind.inputEl, "old", ""⟩ rfl (Or.inl rfl) (by decide)).2.2.1,
   (type_value_and_events [("#e", ⟨ElemKind.inputEl, "old", ""⟩)] "#e" "abc"
      ⟨ElemKind.inputEl, "old", ""⟩ rfl (Or.inl rfl) (by decide)).1⟩

/-- Helper: one best-match step never decreases the running best score. -/
theorem bestStep_snd_le (intent action : String) (acc : Option SelAffordance × Nat)
    (a : SelAffordance) : acc.2 ≤ (bestStep intent action acc a).2 := by
  unfold bestStep
  dsimp only
  split
  · next h => exact Nat.le_of_lt h
  · exact Nat.le_refl _

/-- Helper: after its own step, an affordance's score bounds the running
best score from below. -/
theorem bestStep_score_le (intent action : String) (acc : Option SelAffordance × Nat)
    (a : SelAffordance) :
    scoreAffordance intent action a ≤ (bestStep intent action acc a).2 := by
  unfold bestStep
  dsimp only
  split
  · exact Nat.le_refl _
  · next h => exact Nat.le_of_not_lt h

/-- Helper: the best-match fold never decreases the running best score. -/
theorem bestFold_mono (intent action : String) :
    ∀ (l : List SelAffordance) (acc : Option SelAffordance × Nat),
      acc.2 ≤ (l.foldl (bestStep intent action) acc).2 := by
  intro l
  induction l with
  | nil => intro acc; exact Nat.le_refl _
  | cons a l ih =>
    intro acc
    exact Nat.le_trans (bestStep_snd_le intent action acc a) (ih _)

/-- Helper: every scanned affordance's score bounds the final best score. -/
theorem bestFold_score_le (intent action : String) :
    ∀ (l : List SelAffordance) (acc : Option SelAffordance × Nat) (a : SelAffordance),
      a ∈ l → scoreAffordance intent action a ≤ (l.foldl (bestStep intent action) acc).2 := by
  intro l
  induction l with
  | nil => intro acc a h; cases h
  | cons b l ih =>
    intro acc a h
    rcases List.mem_cons.mp h with rfl | h2
    · exact Nat.le_trans (bestStep_score_le intent action acc a)
        (bestFold_mono intent action l _)
    · exact ih _ a h2

/-- Helper: when the fold ends with no best match, the best score still has
its initial value (an update always installs a match). -/
theorem bestFold_none_zero (intent action : String) :
    ∀ (l : List SelAffordance) (acc : Option SelAffordance × Nat),
      (acc.1 = none → acc.2 = 0) →
      (l.foldl (bestStep intent action) acc).1 = none →
      (l.foldl (bestStep intent action) acc).2 = 0 := by
  intro l
  induction l with
  | nil => intro acc h; exact h
  | cons a l ih =>
    intro acc hacc
    refine ih (bestStep intent action acc a) ?_
    unfold bestStep
    dsimp only
    split
    · intro h; cases h
    · exact hacc

/-- C2 counterexample: with the single affordance `Submit` (tag `button`),
target `submit` and action `click`, the exact-name base score 100 receives
the +10 action-compatibility bonus, so the tool reports matchScore 110 — not
"exactly 100" as the claim states (confidence is still high). -/
theorem selector_exact_match_bonus_cex :
    selectorToolExecute "submit" "click"
      [⟨"Submit", "button", "[data-umbrellamode-id=\"x1\"]"⟩]
      = SelectorResult.matched ⟨"Submit", "button", "[data-umbrellamode-id=\"x1\"]"⟩
          "high" 110 ∧
    (110 : Nat) ≠ 100 :=
  ⟨by decide, by decide⟩

/-- Helper: the result payload when the loop ends with a positive best
score and a best match installed. -/
theorem selectorToolExecute_eq_matched (intent action : String)
    (affs : List SelAffordance) (b : SelAffordance)
    (hb : (bestAffordance intent action affs).1 = some b)
    (hpos : 0 < (bestAffordance intent action affs).2) :
    selectorToolExecute intent action affs
      = SelectorResult.matched b
          (confidenceOfScore (bestAffordance intent action affs).2)
          (bestAffordance intent action affs).2 := by
  simp only [selectorToolExecute, hb]
  rw [if_pos hpos]

/-- C2 (corrected): when the target description equals some affordance's
name case-insensitively, that affordance's own score is 100 PLUS the
action-type compatibility bonus (10 when the action is click on a
button/a/input tag or type on an input/textarea tag, else 0), and the
matcher returns a successful match with confidence `high` and a matchScore
of at least 100 (the returned affordance is the best-scoring one, which can
differ from the exact-match affordance when another scores higher). -/
theorem selector_exact_name_match (intent action : String)
    (affs : List SelAffordance) (a : SelAffordance)
    (ha : a ∈ affs) (hn : jsToLower a.name = jsToLower intent) :
    scoreAffordance intent action a = 100 + actionBonus action a ∧
    ∃ b s, selectorToolExecute intent action affs
        = SelectorResult.matched b "high" s ∧ 100 ≤ s := by
  have hscore : scoreAffordance intent action a = 100 + actionBonus action a := by
    unfold scoreAffordance
    dsimp only
    rw [hn, if_pos (beq_self_eq_true (jsToLower intent))]
  refine ⟨hscore, ?_⟩
  have hle : 100 ≤ (bestAffordance intent action affs).2 := by
    have h1 : scoreAffordance intent action a ≤ (bestAffordance intent action affs).2 :=
      bestFold_score_le intent action affs (none, 0) a ha
    rw [hscore] at h1
    omega
  have hpos : 0 < (bestAffordance intent action affs).2 := by omega
  have hsome : (bestAffordance intent action affs).1.isSome := by
    by_contra hns
    have hnone : (bestAffordance intent action affs).1 = none :=
      Option.not_isSome_iff_eq_none.mp hns
    have hz := bestFold_none_zero intent action affs (none, 0) (fun _ => rfl) hnone
    unfold bestAffordance at hpos
    omega
  obtain ⟨b, hb⟩ := Option.isSome_iff_exists.mp hsome
  refine ⟨b, (bestAffordance intent action affs).2, ?_, hle⟩
  rw [selectorToolExecute_eq_matched intent action affs b hb hpos]
  unfold confidenceOfScore
  rw [if_pos (by omega : 80 ≤ (bestAffordance intent action affs).2)]

/-- Helper: every piece produced by the whitespace splitter is a contiguous
substring of the accumulated prefix followed by the remaining input. -/
theorem splitWSGo_mem_sub : ∀ (l cur : List Char) (skipping : Bool) (t : List Char),
    t ∈ splitWSGo l cur skipping → t <:+: (cur.reverse ++ l) := by
  intro l
  induction l with
  | nil =>
    intro cur skipping t ht
    simp only [splitWSGo, List.mem_singleton] at ht
    subst ht
    exact ⟨[], [], by simp⟩
  | cons c cs ih =>
    intro cur skipping t ht
    by_cases hws : c.isWhitespace
    · cases skipping with
      | true =>
        simp only [splitWSGo, hws, if_true] at ht
        exact (ih [] true t ht).trans ⟨cur.reverse ++ [c], [], by simp⟩
      | false =>
        simp only [splitWSGo, hws, if_true] at ht
        rcases List.mem_cons.mp ht with rfl | h2
        · exact ⟨[], c :: cs, by simp⟩
        · exact (ih [] true t h2).trans ⟨cur.reverse ++ [c], [], by simp⟩
    · simp only [splitWSGo, hws, if_false] at ht
      have h2 := ih (c :: cur) false t ht
      rw [List.reverse_cons, List.append_assoc] at h2
      simpa using h2

/-- Helper: the whitespace splitter always produces at least one piece. -/
theorem splitWSGo_ne_nil : ∀ (l cur : List Char) (skipping : Bool),
    splitWSGo l cur skipping ≠ [] := by
  intro l
  induction l with
  | nil => intro cur skipping; simp [splitWSGo]
  | cons c cs ih =>
    intro cur skipping
    by_cases hws : c.isWhitespace
    · cases skipping with
      | true =>
        simp only [splitWSGo, hws, if_true]
        exact ih [] true
      | false => simp [splitWSGo, hws]
    · simp only [splitWSGo, hws, if_false]
      exact ih (c :: cur) false

/-- Helper: `strIncludes` decides contiguous-substring containment. -/
theorem strIncludes_iff (hay needle : String) :
    strIncludes hay needle = true ↔ needle.data <:+: hay.data := by
  simp [strIncludes]

/-- Helper: `s.split(/\s+/)` is never empty. -/
theorem jsSplitWS_ne_nil (s : String) : jsSplitWS s ≠ [] := by
  unfold jsSplitWS
  intro h
  exact splitWSGo_ne_nil s.data [] false (List.map_eq_nil_iff.mp h)

/-- Helper: every whitespace token of a string occurs in it as a contiguous
substring. -/
theorem jsSplitWS_mem_sub (s t : String) (ht : t ∈ jsSplitWS s) :
    t.data <:+: s.data := by
  unfold jsSplitWS at ht
  rcases List.mem_map.mp ht with ⟨tl, htl, rfl⟩
  have h := splitWSGo_mem_sub s.data [] false tl htl
  simpa using h

/-- Helper for C3: an affordance sharing no token with the target, not
occurring in the target, differing from it, and receiving no action bonus
scores exactly 0. -/
theorem scoreAffordance_eq_zero (intent action : String) (a : SelAffordance)
    (hTok : ∀ t ∈ jsSplitWS (jsToLower intent),
       strIncludes (jsToLower a.name) t = false ∧ strIncludes (jsToLower a.tag) t = false)
    (hSub1 : strIncludes (jsToLower intent) (jsToLower a.name) = false)
    (hSub2 : strIncludes (jsToLower intent) (jsToLower a.tag) = false)
    (hEq : jsToLower a.name ≠ jsToLower intent)
    (hBonus : actionBonus action a = 0) :
    scoreAffordance intent action a = 0 := by
  obtain ⟨t0, ht0⟩ : ∃ t, t ∈ jsSplitWS (jsToLower intent) := by
    cases hsp : jsSplitWS (jsToLower intent) with
    | nil => exact absurd hsp (jsSplitWS_ne_nil _)
    | cons x xs => exact ⟨x, List.mem_cons_self x xs⟩
  have ht0sub : t0.data <:+: (jsToLower intent).data := jsSplitWS_mem_sub _ t0 ht0
  have hb2l : strIncludes (jsToLower a.name) (jsToLower intent) = false := by
    cases hx : strIncludes (jsToLower a.name) (jsToLower intent) with
    | false => rfl
    | true =>
      exfalso
      have hinc : (jsToLower intent).data <:+: (jsToLower a.name).data :=
        (strIncludes_iff _ _).mp hx
      have htn : strIncludes (jsToLower a.name) t0 = true :=
        (strIncludes_iff _ _).mpr (ht0sub.trans hinc)
      rw [(hTok t0 ht0).1] at htn
      cases htn
  have hb3l : strIncludes (jsToLower a.tag) (jsToLower intent) = false := by
    cases hx : strIncludes (jsToLower a.tag) (jsToLower intent) with
    | false => rfl
    | true =>
      exfalso
      have hinc : (jsToLower intent).data <:+: (jsToLower a.tag).data :=
        (strIncludes_iff _ _).mp hx
      have htn : strIncludes (jsToLower a.tag) t0 = true :=
        (strIncludes_iff _ _).mpr (ht0sub.trans hinc)
      rw [(hTok t0 ht0).2] at htn
      cases htn
  have hbeq : ((jsToLower a.name) == (jsToLower intent)) = false := by
    rw [beq_eq_false_iff_ne]
    exact hEq
  have hcount : List.countP
      (fun kw => strIncludes (jsToLower a.name) kw || strIncludes (jsToLower a.tag) kw)
      (jsSplitWS (jsToLower intent)) = 0 := by
    rw [List.countP_eq_zero]
    intro t ht
    rw [(hTok t ht).1, (hTok t ht).2]
    simp
  unfold scoreAffordance
  dsimp only
  rw [hbeq, hb2l, hSub1, hb3l, hSub2, hcount, hBonus]
  simp

/-- Helper for C3: when every affordance scores 0, the best-match loop ends
where it started. -/
theorem bestFold_all_zero (intent action : String) :
    ∀ (l : List SelAffordance), (∀ a ∈ l, scoreAffordance intent action a = 0) →
      l.foldl (bestStep intent action) (none, 0) = ((none : Option SelAffordance), 0) := by
  intro l
  induction l with
  | nil => intro _; rfl
  | cons a l ih =>
    intro h
    show List.foldl _ (bestStep intent action (none, 0) a) l = _
    have hstep : bestStep intent action (none, 0) a = (none, 0) := by
      unfold bestStep
      dsimp only
      rw [h a (List.mem_cons_self a l)]
      simp
    rw [hstep]
    exact ih (fun b hb => h b (List.mem_cons_of_mem a hb))

/-- C3 counterexample: the target `zzz` shares no token with the single
affordance `Submit` (tag `button`) — no token of `zzz` occurs in the name or
tag, neither name nor tag occurs in `zzz`, and no name equals it — yet with
action `click` the tool returns a successful match (the +10 action-type
bonus applies with a base score of 0), not the no-match payload. -/
theorem selector_bonus_only_match_cex :
    selectorToolExecute "zzz" "click" [⟨"Submit", "button", "[x1]"⟩]
      = SelectorResult.matched ⟨"Submit", "button", "[x1]"⟩ "low" 10 ∧
    SelectorResult.matched (SelAffordance.mk "Submit" "button" "[x1]") "low" 10
      ≠ SelectorResult.noMatch suggestionMsg :=
  ⟨by decide, by decide⟩

/-- C3 (corrected): a target sharing no tokens with any affordance produces
the no-match payload with the suggestion string PROVIDED no affordance
receives the action-type compatibility bonus; when some affordance's tag is
compatible with the action, the bonus alone (10 points) makes it a
successful low-confidence match instead. -/
theorem selector_token_disjoint_no_match (intent action : String)
    (affs : List SelAffordance)
    (hTok : ∀ a ∈ affs, ∀ t ∈ jsSplitWS (jsToLower intent),
       strIncludes (jsToLower a.name) t = false ∧ strIncludes (jsToLower a.tag) t = false)
    (hSub : ∀ a ∈ affs, strIncludes (jsToLower intent) (jsToLower a.name) = false ∧
       strIncludes (jsToLower intent) (jsToLower a.tag) = false)
    (hEq : ∀ a ∈ affs, jsToLower a.name ≠ jsToLower intent)
    (hBonus : ∀ a ∈ affs, actionBonus action a = 0) :
    selectorToolExecute intent action affs = SelectorResult.noMatch suggestionMsg := by
  have hall : ∀ a ∈ affs, scoreAffordance intent action a = 0 := fun a ha =>
    scoreAffordance_eq_zero intent action a (hTok a ha) (hSub a ha).1 (hSub a ha).2
      (hEq a ha) (hBonus a ha)
  have hfold := bestFold_all_zero intent action affs hall
  unfold selectorToolExecute bestAffordance
  rw [hfold]

/-- Witness for C3: the token-disjoint target `zzz` with action `clear` (no
bonus possible) against the `Submit` affordance yields the no-match
payload. -/
theorem selector_token_disjoint_no_match_witness :
    selectorToolExecute "zzz" "clear" [⟨"Submit", "div", "[s]"⟩]
      = SelectorResult.noMatch suggestionMsg :=
  selector_token_disjoint_no_match "zzz" "clear" [⟨"Submit", "div", "[s]"⟩]
    (by decide) (by decide) (by decide) (by decide)

/-- Witness for C2: `Submit` on a `div` tag with action `clear` (no bonus
applies, so the exact-match score is 100 + 0). -/
theorem selector_exact_name_match_witness :
    jsToLower (SelAffordance.mk "Submit" "div" "[s]").name = jsToLower "submit" ∧
    scoreAffordance "submit" "clear" ⟨"Submit", "div", "[s]"⟩
      = 100 + actionBonus "clear" ⟨"Submit", "div", "[s]"⟩ :=
  ⟨by decide,
   (selector_exact_name_match "submit" "clear" [⟨"Submit", "div", "[s]"⟩]
      ⟨"Submit", "div", "[s]"⟩ (by decide) (by decide)).1⟩

/-- Witness for C4: a well-behaved element followed by a throwing one; the
scan aborts with the second element's exception. -/
theorem collect_throw_aborts_witness :
    collectAffordances
      ([⟨"A", "", "", "", "Link", "", none, none⟩] ++
        ⟨"BUTTON", "", "", "", "Submit", "", none, some "boom"⟩ :: []) 400
      = Except.error "boom" :=
  collect_throw_aborts [⟨"A", "", "", "", "Link", "", none, none⟩]
    ⟨"BUTTON", "", "", "", "Submit", "", none, some "boom"⟩ [] "boom" 400
    (by decide) rfl (by decide)

/-- Helper: a fold that adds `k` whenever the predicate holds counts the
matching elements. -/
theorem foldl_if_add {α : Type} (p : α → Bool) (k : Nat) :
    ∀ (l : List α) (init : Nat),
      l.foldl (fun s w => if p w then s + k else s) init = init + k * l.countP p := by
  intro l
  induction l with
  | nil => intro init; simp
  | cons a l ih =>
    intro init
    show List.foldl _ (if p a then init + k else init) l = _
    rw [ih]
    by_cases hp : p a = true
    · rw [if_pos hp, List.countP_cons, if_pos hp]
      ring
    · rw [if_neg hp, List.countP_cons, if_neg hp]
      ring

/-- Helper: the nested action-description loop adds 10 per counted word of
every action, in total. -/
theorem foldl_nested_actions (requestLower : String) :
    ∀ (l : List (String × IntentActionSchema)) (init : Nat),
      l.foldl (fun s a =>
        (jsSplitWS (jsToLower a.2.description)).foldl
          (fun sw w => if 3 < w.length && strIncludes requestLower w then sw + 10 else sw) s)
        init
      = init + 10 * (l.map (fun a =>
          List.countP (fun w => 3 < w.length && strIncludes requestLower w)
            (jsSplitWS (jsToLower a.2.description)))).sum := by
  intro l
  induction l with
  | nil => intro init; simp
  | cons a l ih =>
    intro init
    show List.foldl _
        ((jsSplitWS (jsToLower a.2.description)).foldl _ init) l = _
    rw [ih, foldl_if_add]
    simp only [List.map_cons, List.sum_cons]
    ring

/-- Helper for C7: the three score loops compute exactly 30 per intent-name
keyword found, plus 20 per field name found, plus 10 per action-description
word longer than 3 characters found. -/
theorem intentScore_closed (requestLower intentName : String) (d : IntentDefinition) :
    intentScore requestLower intentName d
      = 30 * List.countP (fun w => strIncludes requestLower w)
            (jsSplitOnChar '-' intentName)
        + 20 * List.countP (fun f => strIncludes requestLower (jsToLower f.1)) d.fields
        + 10 * (d.actions.map (fun a =>
            List.countP (fun w => 3 < w.length && strIncludes requestLower w)
              (jsSplitWS (jsToLower a.2.description)))).sum := by
  unfold intentScore
  dsimp only
  rw [foldl_nested_actions, foldl_if_add, foldl_if_add]
  ring

/-- Helper: one intent step never decreases the running best score. -/
theorem intentStep_optScore_le (rl cat : String) (b : Option BestIntent)
    (p : String × IntentDefinition) :
    optScore b ≤ optScore (intentStep rl cat b p) := by
  cases b with
  | none =>
    unfold intentStep
    dsimp only
    split
    · exact Nat.zero_le _
    · exact Nat.le_refl _
  | some bm =>
    unfold intentStep
    dsimp only
    split
    · next h =>
      have h2 := (Bool.and_eq_true _ _).mp h
      have h3 : bm.score < intentScore rl p.1 p.2 := of_decide_eq_true h2.2
      exact Nat.le_of_lt h3
    · exact Nat.le_refl _

/-- Helper: after its own step, an intent's score bounds the running best
score from below. -/
theorem intentStep_score_le (rl cat : String) (b : Option BestIntent)
    (p : String × IntentDefinition) :
    intentScore rl p.1 p.2 ≤ optScore (intentStep rl cat b p) := by
  cases b with
  | none =>
    unfold intentStep
    dsimp only
    split
    · exact Nat.le_refl _
    · next h =>
      simp only [Bool.and_eq_true, decide_eq_true_eq] at h
      have h0 : intentScore rl p.1 p.2 = 0 := by
        by_contra hne
        exact h ⟨Nat.pos_of_ne_zero hne, trivial⟩
      rw [h0]
      exact Nat.zero_le _
  | some bm =>
    unfold intentStep
    dsimp only
    split
    · exact Nat.le_refl _
    · next h =>
      simp only [Bool.and_eq_true, decide_eq_true_eq] at h
      show intentScore rl p.1 p.2 ≤ bm.score
      rcases Nat.eq_zero_or_pos (intentScore rl p.1 p.2) with h0 | hpos
      · rw [h0]; exact Nat.zero_le _
      · by_contra hgt
        exact h ⟨hpos, Nat.lt_of_not_le (fun hc => hgt hc)⟩

/-- Helper: the inner intent fold never decreases the running best score. -/
theorem intentFold_mono (rl cat : String) :
    ∀ (l : List (String × IntentDefinition)) (b : Option BestIntent),
      optScore b ≤ optScore (l.foldl (intentStep rl cat) b) := by
  intro l
  induction l with
  | nil => intro b; exact Nat.le_refl _
  | cons p l ih =>
    intro b
    exact Nat.le_trans (intentStep_optScore_le rl cat b p) (ih _)

/-- Helper: every intent scanned by the inner fold has its score bounded by
the final best score. -/
theorem intentFold_score_le (rl cat : String) :
    ∀ (l : List (String × IntentDefinition)) (b : Option BestIntent)
      (p : String × IntentDefinition), p ∈ l →
      intentScore rl p.1 p.2 ≤ optScore (l.foldl (intentStep rl cat) b) := by
  intro l
  induction l with
  | nil => intro b p h; cases h
  | cons q l ih =>
    intro b p h
    rcases List.mem_cons.mp h with rfl | h2
    · exact Nat.le_trans (intentStep_score_le rl cat b p) (intentFold_mono rl cat l _)
    · exact ih _ p h2

/-- Helper: where a best match produced by the inner fold comes from: either
it was already the accumulator, or it is one of the scanned intents with its
exact score, positive. -/
theorem intentFold_origin (rl cat : String) :
    ∀ (l : List (String × IntentDefinition)) (b : Option BestIntent) (bm : BestIntent),
      l.foldl (intentStep rl cat) b = some bm →
      b = some bm ∨ ∃ p ∈ l, bm = ⟨cat, p.1, intentScore rl p.1 p.2, p.2⟩
        ∧ 0 < bm.score := by
  intro l
  induction l with
  | nil => intro b bm h; exact Or.inl h
  | cons p l ih =>
    intro b bm h
    rcases ih (intentStep rl cat b p) bm h with h1 | ⟨q, hq, h2⟩
    · unfold intentStep at h1
      dsimp only at h1
      split at h1
      · next hc =>
        have hbm : bm = ⟨cat, p.1, intentScore rl p.1 p.2, p.2⟩ :=
          (Option.some.inj h1).symm
        subst hbm
        have hpos : 0 < intentScore rl p.1 p.2 :=
          of_decide_eq_true ((Bool.and_eq_true _ _).mp hc).1
        exact Or.inr ⟨p, List.mem_cons_self p l, rfl, hpos⟩
      · exact Or.inl h1
    · exact Or.inr ⟨q, List.mem_cons_of_mem p hq, h2⟩

/-- Helper: the outer category fold never decreases the running best score. -/
theorem catFold_mono (config : IntentConfig) (rl : String) :
    ∀ (cats : List String) (b : Option BestIntent),
      optScore b ≤ optScore (cats.foldl
        (fun b cat => (intentsOf config cat).foldl (intentStep rl cat) b) b) := by
  intro cats
  induction cats with
  | nil => intro b; exact Nat.le_refl _
  | cons c cats ih =>
    intro b
    refine Nat.le_trans (intentFold_mono rl c (intentsOf config c) b) ?_
    exact ih _

/-- Helper: every intent in every searched category has its score bounded by
the final best score. -/
theorem catFold_score_le (config : IntentConfig) (rl : String) :
    ∀ (cats : List String) (b : Option BestIntent) (c : String)
      (p : String × IntentDefinition), c ∈ cats → p ∈ intentsOf config c →
      intentScore rl p.1 p.2 ≤ optScore (cats.foldl
        (fun b cat => (intentsOf config cat).foldl (intentStep rl cat) b) b) := by
  intro cats
  induction cats with
  | nil => intro b c p hc _; cases hc
  | cons c0 cats ih =>
    intro b c p hc hp
    rcases List.mem_cons.mp hc with rfl | h2
    · exact Nat.le_trans (intentFold_score_le rl c (intentsOf config c) b p hp)
        (catFold_mono config rl cats _)
    · exact ih _ c p h2 hp

/-- Helper: where the final best match of the category fold comes from. -/
theorem catFold_origin (config : IntentConfig) (rl : String) :
    ∀ (cats : List String) (b : Option BestIntent) (bm : BestIntent),
      cats.foldl (fun b cat => (intentsOf config cat).foldl (intentStep rl cat) b) b
        = some bm →
      b = some bm ∨ ∃ c ∈ cats, ∃ p ∈ intentsOf config c,
        bm = ⟨c, p.1, intentScore rl p.1 p.2, p.2⟩ ∧ 0 < bm.score := by
  intro cats
  induction cats with
  | nil => intro b bm h; exact Or.inl h
  | cons c0 cats ih =>
    intro b bm h
    rcases ih _ bm h with h1 | ⟨c, hc, q, hq, h2⟩
    · rcases intentFold_origin rl c0 (intentsOf config c0) b bm h1 with h3 | ⟨p, hp, h4⟩
      · exact Or.inl h3
      · exact Or.inr ⟨c0, List.mem_cons_self c0 cats, p, hp, h4⟩
    · exact Or.inr ⟨c, List.mem_cons_of_mem c0 hc, q, hq, h2⟩

/-- C7 (confirmed): the structured intent matcher scores each configured
intent as 30 per intent-name keyword found in the request, 20 per declared
field name found, and 10 per action-description word longer than 3
characters found; a returned best match is one of the searched intents with
a positive score bounding every searched intent's score from above, and is
reported through `matchIntentFromUserRequest` with confidence classified
high at score 50, medium at 30, low below; and the intent tool falls
through to the natural-language parser exactly when there is no structured
match or the match's confidence is low. -/
theorem intent_matcher_and_tool (config : IntentConfig) (userRequest : String)
    (category : Option String) :
    (∀ (intentName : String) (d : IntentDefinition),
       intentScore (jsToLower userRequest) intentName d
         = 30 * List.countP (fun w => strIncludes (jsToLower userRequest) w)
               (jsSplitOnChar '-' intentName)
           + 20 * List.countP (fun f => strIncludes (jsToLower userRequest) (jsToLower f.1))
               d.fields
           + 10 * (d.actions.map (fun a =>
               List.countP (fun w => 3 < w.length && strIncludes (jsToLower userRequest) w)
                 (jsSplitWS (jsToLower a.2.description)))).sum) ∧
    (∀ bm : BestIntent, bestIntent config userRequest category = some bm →
       0 < bm.score ∧
       (∃ c ∈ categoriesToSearch config category, ∃ p ∈ intentsOf config c,
          bm = ⟨c, p.1, intentScore (jsToLower userRequest) p.1 p.2, p.2⟩) ∧
       (∀ c ∈ categoriesToSearch config category, ∀ p ∈ intentsOf config c,
          intentScore (jsToLower userRequest) p.1 p.2 ≤ bm.score) ∧
       matchIntentFromUserRequest config userRequest category
         = some ⟨bm.category, bm.intentName, confidenceOfIntentScore bm.score, bm.config⟩) ∧
    (∀ s : Nat, (50 ≤ s → confidenceOfIntentScore s = "high") ∧
       (30 ≤ s → ¬ 50 ≤ s → confidenceOfIntentScore s = "medium") ∧
       (¬ 30 ≤ s → confidenceOfIntentScore s = "low")) ∧
    (matchIntentFromUserRequest config userRequest category = none →
       intentToolExecute config userRequest category
         = IntentToolOutcome.naturalLanguage userRequest) ∧
    (∀ m : IntentMatch, matchIntentFromUserRequest config userRequest category = some m →
       m.confidence = "low" →
       intentToolExecute config userRequest category
         = IntentToolOutcome.naturalLanguage userRequest) ∧
    (∀ m : IntentMatch, matchIntentFromUserRequest config userRequest category = some m →
       m.confidence ≠ "low" →
       intentToolExecute config userRequest category = IntentToolOutcome.structured m) := by
  refine ⟨fun intentName d => intentScore_closed _ intentName d, ?_, ?_, ?_, ?_, ?_⟩
  · intro bm h
    have hfold : (categoriesToSearch config category).foldl
        (fun b cat => (intentsOf config cat).foldl (intentStep (jsToLower userRequest) cat) b)
        none = some bm := h
    rcases catFold_origin config (jsToLower userRequest) _ none bm hfold with h1 | hex
    · cases h1
    · obtain ⟨c, hc, p, hp, hbm, hpos⟩ := hex
      refine ⟨hpos, ⟨c, hc, p, hp, hbm⟩, ?_, ?_⟩
      · intro c2 hc2 p2 hp2
        have := catFold_score_le config (jsToLower userRequest) _ none c2 p2 hc2 hp2
        rw [hfold] at this
        exact this
      · unfold matchIntentFromUserRequest
        rw [h]
  · intro s
    refine ⟨fun h => ?_, fun h1 h2 => ?_, fun h => ?_⟩
    · unfold confidenceOfIntentScore
      rw [if_pos h]
    · unfold confidenceOfIntentScore
      rw [if_neg h2, if_pos h1]
    · unfold confidenceOfIntentScore
      rw [if_neg (fun hc => h (Nat.le_trans (by norm_num) hc)), if_neg h]
  · intro h
    unfold intentToolExecute
    rw [h]
  · intro m hm hlow
    unfold intentToolExecute
    rw [hm]
    dsimp only
    rw [if_neg (fun hc => hc hlow)]
  · intro m hm hne
    unfold intentToolExecute
    rw [hm]
    dsimp only
    rw [if_pos hne]

/-- A one-category example configuration mirroring the `update-name` intent
of `umbrellamode.json`, used by the C7 witness. -/
def settingsIntentDef : IntentDefinition :=
  ⟨[("name", ⟨"string", true⟩)], [("update", ⟨"Update the user name", []⟩)]⟩

/-- The example configuration for the C7 witness. -/
def intentConfigEx : IntentConfig := [("settings", [("update-name", settingsIntentDef)])]

/-- Witness for C7: on the example configuration, the request
`update my name to john` produces the best match `settings/update-name` with
score 100, reported with high confidence. -/
theorem intent_matcher_and_tool_witness :
    0 < (100 : Nat) ∧
    matchIntentFromUserRequest intentConfigEx "update my name to john" none
      = some ⟨"settings", "update-name", "high", settingsIntentDef⟩ :=
  ⟨((intent_matcher_and_tool intentConfigEx "update my name to john" none).2.1
      ⟨"settings", "update-name", 100, settingsIntentDef⟩ (by rfl)).1,
   ((intent_matcher_and_tool intentConfigEx "update my name to john" none).2.1
      ⟨"settings", "update-name", 100, settingsIntentDef⟩ (by rfl)).2.2.2⟩

end Umbrella
